import Mathlib

/-!
Verification of the serial-transport core of the pico-macro-pad-config
repository: the line-framing read loop (realSerial.ts / serial.ts), the
emulated transport and its mock device (emulatedSerial.ts), and the
connection factory (factory.ts).  Programs are shallowly embedded:
strings are lists of characters, byte streams are lists of naturals,
JSON values are an inductive type, and the stateful connection objects
become explicit state-passing functions.
-/

/-! ## Characters and whitespace -/

/-- The whitespace set of JavaScript String.prototype.trim, restricted to
the ASCII range (Unicode space separators are not relevant to the
protocol traffic modelled here). -/
def jsIsWs (c : Char) : Bool :=
  c = ' ' || c = '\t' || c = '\n' || c = '\r' || c = '\x0b' || c = '\x0c'

/-- JavaScript String.prototype.trim: strip leading and trailing
whitespace.  Used by the read loop on every framed line and by the mock
device's text-command handler. -/
def jsTrim (l : List Char) : List Char :=
  ((l.dropWhile jsIsWs).reverse.dropWhile jsIsWs).reverse

theorem mem_of_mem_jsTrim {x : Char} {l : List Char} (h : x ∈ jsTrim l) : x ∈ l := by
  unfold jsTrim at h
  rw [List.mem_reverse] at h
  have h1 := List.dropWhile_sublist (l := (l.dropWhile jsIsWs).reverse) (p := jsIsWs)
  have h2 := h1.mem h
  rw [List.mem_reverse] at h2
  exact (List.dropWhile_sublist (l := l) (p := jsIsWs)).mem h2

/-! ## Streaming UTF-8 decoder

Models the browser TextDecoder in streaming mode (`decode(value,
{ stream: true })`) as used by the read loops in realSerial.ts and
serial.ts: bytes of a multi-byte character that straddle a chunk
boundary are held back (`pending`) until the character is complete.
The decoder is a byte-at-a-time state machine; the number of bytes a
character occupies is determined by its lead byte. -/

/-- Number of bytes of the UTF-8 sequence introduced by lead byte `b`
(invalid lead bytes consume one byte, standing for one replacement
character). -/
def utf8Needed (b : Nat) : Nat :=
  if b < 0x80 then 1
  else if b < 0xC0 then 1
  else if b < 0xE0 then 2
  else if b < 0xF0 then 3
  else if b < 0xF8 then 4
  else 1

/-- Decode one complete UTF-8 byte sequence into a character.  Invalid
sequences yield the replacement character, as TextDecoder does. -/
def utf8DecodeOne (bytes : List Nat) : Char :=
  match bytes with
  | [b] =>
    if b < 0x80 then Char.ofNat b else (Char.ofNat 0xFFFD)
  | [b, b1] =>
    if 0x80 ≤ b1 && b1 < 0xC0 then Char.ofNat ((b % 0x20) * 0x40 + b1 % 0x40)
    else (Char.ofNat 0xFFFD)
  | [b, b1, b2] =>
    if (0x80 ≤ b1 && b1 < 0xC0) && (0x80 ≤ b2 && b2 < 0xC0) then
      Char.ofNat (((b % 0x10) * 0x40 + b1 % 0x40) * 0x40 + b2 % 0x40)
    else (Char.ofNat 0xFFFD)
  | [b, b1, b2, b3] =>
    if ((0x80 ≤ b1 && b1 < 0xC0) && (0x80 ≤ b2 && b2 < 0xC0)) && (0x80 ≤ b3 && b3 < 0xC0) then
      Char.ofNat ((((b % 0x08) * 0x40 + b1 % 0x40) * 0x40 + b2 % 0x40) * 0x40 + b3 % 0x40)
    else (Char.ofNat 0xFFFD)
  | _ => (Char.ofNat 0xFFFD)

/-- Feed one byte to the streaming decoder: either a character completes
or the byte joins the pending prefix. -/
def utf8DecodeStep (pending : List Nat) (b : Nat) : Option Char × List Nat :=
  let p := pending ++ [b]
  match p with
  | [] => (none, [])
  | hd :: tl =>
    if utf8Needed hd ≤ (hd :: tl).length then (some (utf8DecodeOne (hd :: tl)), [])
    else (none, hd :: tl)

/-- Streaming decode of a chunk of bytes: returns the decoded text and
the pending incomplete suffix carried to the next chunk. -/
def utf8DecodeAux (pending : List Nat) : List Nat → List Char × List Nat
  | [] => ([], pending)
  | b :: bs =>
    match utf8DecodeStep pending b with
    | (some c, p') =>
      let r := utf8DecodeAux p' bs
      (c :: r.1, r.2)
    | (none, p') => utf8DecodeAux p' bs

/-- Chunk boundaries are invisible to the streaming decoder: decoding
`x ++ y` is decoding `x`, then decoding `y` from the pending state left
by `x`. -/
theorem utf8DecodeAux_append (x y : List Nat) (p : List Nat) :
    utf8DecodeAux p (x ++ y) =
      ((utf8DecodeAux p x).1 ++ (utf8DecodeAux (utf8DecodeAux p x).2 y).1,
        (utf8DecodeAux (utf8DecodeAux p x).2 y).2) := by
  induction x generalizing p with
  | nil => simp [utf8DecodeAux]
  | cons b bs ih =>
    simp only [List.cons_append, utf8DecodeAux]
    cases hs : utf8DecodeStep p b with
    | mk oc p' =>
      cases oc with
      | none => simpa using ih p'
      | some c => simp [ih p']

/-! ## Line framing

The read loop (realSerial.ts startReadLoop, serial.ts startReadLoop)
appends decoded text to a growing buffer and repeatedly splits off
everything before the first newline, emitting each piece trimmed when
non-empty.  `splitLines` performs the complete-line extraction of one
buffer scan: it returns all complete lines (untrimmed) and the
remainder that stays in the buffer. -/

def splitLines : List Char → List (List Char) × List Char
  | [] => ([], [])
  | c :: r =>
    if c = '\n' then
      let s := splitLines r
      ([] :: s.1, s.2)
    else
      let s := splitLines r
      match s.1 with
      | [] => ([], c :: s.2)
      | l :: ls => ((c :: l) :: ls, s.2)

theorem splitLines_rest_no_nl (s : List Char) : '\n' ∉ (splitLines s).2 := by
  induction s with
  | nil => simp [splitLines]
  | cons c r ih =>
    by_cases hc : c = '\n'
    · simpa [splitLines, hc] using ih
    · simp only [splitLines, if_neg hc]
      cases h : (splitLines r).1 with
      | nil =>
        simp only []
        intro hmem
        rcases List.mem_cons.1 hmem with h1 | h1
        · exact hc h1.symm
        · exact ih h1
      | cons l ls => simpa using ih

theorem splitLines_lines_no_nl (s : List Char) :
    ∀ l ∈ (splitLines s).1, '\n' ∉ l := by
  induction s with
  | nil => simp [splitLines]
  | cons c r ih =>
    by_cases hc : c = '\n'
    · simp only [splitLines, if_pos hc]
      intro l hl
      rcases List.mem_cons.1 hl with h1 | h1
      · simp [h1]
      · exact ih l h1
    · simp only [splitLines, if_neg hc]
      cases h : (splitLines r).1 with
      | nil => simp
      | cons l0 ls =>
        intro l hl
        rcases List.mem_cons.1 hl with h1 | h1
        · subst h1
          intro hmem
          rcases List.mem_cons.1 hmem with h2 | h2
          · exact hc h2.symm
          · exact ih l0 (by simp [h]) h2
        · exact ih l (by simp [h, h1])

theorem splitLines_of_no_nl {s : List Char} (h : '\n' ∉ s) :
    splitLines s = ([], s) := by
  induction s with
  | nil => simp [splitLines]
  | cons c r ih =>
    have hc : ¬ c = '\n' := fun hh => h (by simp [hh])
    have hr : '\n' ∉ r := fun hh => h (by simp [hh])
    simp [splitLines, if_neg hc, ih hr]

/-- One buffer scan is insensitive to where the text arrived from:
scanning `a ++ b` equals scanning `a` and then scanning the remainder
of `a` extended by `b`. -/
theorem splitLines_append (a b : List Char) :
    splitLines (a ++ b) =
      ((splitLines a).1 ++ (splitLines ((splitLines a).2 ++ b)).1,
        (splitLines ((splitLines a).2 ++ b)).2) := by
  induction a with
  | nil => simp [splitLines]
  | cons c r ih =>
    rcases hr : splitLines r with ⟨ls, rem⟩
    rw [hr] at ih
    rcases hx : splitLines (rem ++ b) with ⟨ls2, rem2⟩
    rw [hx] at ih
    by_cases hc : c = '\n'
    · simp [splitLines, if_pos hc, ih, hr, hx]
    · cases ls with
      | nil =>
        simp only [List.nil_append] at ih
        cases ls2 with
        | nil =>
          simp [splitLines, if_neg hc, ih, hr, hx]
        | cons l2 ls2' =>
          simp [splitLines, if_neg hc, ih, hr, hx]
      | cons l ls' =>
        simp [splitLines, if_neg hc, ih, hr, hx]

/-! ## The read loop as a state machine over byte chunks -/

/-- Decoder-plus-framing state carried between chunk arrivals: the
pending UTF-8 bytes and the text buffer before the next newline. -/
structure RLState where
  pending : List Nat
  buffer : List Char
  deriving DecidableEq

/-- Process one arriving chunk exactly as the read loop body does:
decode (streaming), append to the buffer, split off every complete
line, trim it and emit it when non-empty. -/
def readStep (st : RLState) (chunk : List Nat) : List (List Char) × RLState :=
  let d := utf8DecodeAux st.pending chunk
  let s := splitLines (st.buffer ++ d.1)
  (((s.1.map jsTrim).filter (fun l => !l.isEmpty)), ⟨d.2, s.2⟩)

/-- Run the read loop over a sequence of chunks, concatenating the
emitted lines in order. -/
def readLoopRun : RLState → List (List Nat) → List (List Char) × RLState
  | st, [] => ([], st)
  | st, c :: cs =>
    let o := readStep st c
    let r := readLoopRun o.2 cs
    (o.1 ++ r.1, r.2)

/-- Lines the framing codec emits for a chunked byte stream, starting
from the fresh state of startReadLoop. -/
def readLoopLines (chunks : List (List Nat)) : List (List Char) :=
  (readLoopRun ⟨[], []⟩ chunks).1

/-- Reachable read-loop states: the buffer holds no newline (everything
before a newline was already emitted). -/
def RLState.Settled (st : RLState) : Prop := splitLines st.buffer = ([], st.buffer)

theorem readStep_settled (st : RLState) (c : List Nat) : (readStep st c).2.Settled := by
  have h := splitLines_rest_no_nl (st.buffer ++ (utf8DecodeAux st.pending c).1)
  exact splitLines_of_no_nl h

/-- Two consecutive chunks produce exactly the lines of their
concatenation, in order, and the same final state. -/
theorem readStep_combine (st : RLState) (c₁ c₂ : List Nat) :
    ((readStep st c₁).1 ++ (readStep (readStep st c₁).2 c₂).1,
      (readStep (readStep st c₁).2 c₂).2) = readStep st (c₁ ++ c₂) := by
  rcases hd1 : utf8DecodeAux st.pending c₁ with ⟨t1, p1⟩
  rcases hs1 : splitLines (st.buffer ++ t1) with ⟨ls1, b1⟩
  rcases hd2 : utf8DecodeAux p1 c₂ with ⟨t2, p2⟩
  rcases hs2 : splitLines (b1 ++ t2) with ⟨ls2, b2⟩
  have hd : utf8DecodeAux st.pending (c₁ ++ c₂) = (t1 ++ t2, p2) := by
    rw [utf8DecodeAux_append, hd1]
    simp [hd2]
  have hs : splitLines (st.buffer ++ (t1 ++ t2)) = (ls1 ++ ls2, b2) := by
    rw [← List.append_assoc, splitLines_append (st.buffer ++ t1) t2, hs1]
    simp [hs2]
  simp [readStep, hd1, hs1, hd2, hs2, hd, hs, List.filter_append]

theorem readLoopRun_eq_single {st : RLState} (h : st.Settled) (cs : List (List Nat)) :
    readLoopRun st cs = readStep st cs.flatten := by
  induction cs generalizing st with
  | nil =>
    simp only [readLoopRun, List.flatten, readStep, utf8DecodeAux, List.append_nil]
    rw [h]
    simp
  | cons c cs ih =>
    simp only [readLoopRun, List.flatten]
    rw [ih (readStep_settled st c)]
    exact readStep_combine st c cs.flatten

/-- C1.  However a byte stream is partitioned into chunks, the read
loop emits the same ordered sequence of trimmed non-empty lines, and no
emitted line contains a newline. -/
theorem readLoop_partition_invariant (cs cs' : List (List Nat))
    (h : cs.flatten = cs'.flatten) :
    readLoopLines cs = readLoopLines cs' ∧
      ∀ l ∈ readLoopLines cs, '\n' ∉ l := by
  have hsettled : (RLState.mk [] []).Settled := by
    simp [RLState.Settled, splitLines]
  constructor
  · unfold readLoopLines
    rw [readLoopRun_eq_single hsettled, readLoopRun_eq_single hsettled, h]
  · intro l hl
    unfold readLoopLines at hl
    rw [readLoopRun_eq_single hsettled] at hl
    simp only [readStep, List.mem_filter, List.mem_map] at hl
    obtain ⟨⟨l0, hl0, hl0eq⟩, -⟩ := hl
    intro hnl
    have hx := mem_of_mem_jsTrim (hl0eq ▸ hnl)
    exact splitLines_lines_no_nl _ l0 hl0 hx

/-- Concrete instance of C1: the stream "hi\nworld\n" chunked three
ways, including a split inside a line, yields the same lines. -/
theorem readLoop_partition_invariant_witness :
    ([[104, 105], [10, 119, 111], [114, 108, 100, 10]].flatten
        = [[104, 105, 10, 119, 111, 114, 108, 100, 10]].flatten) ∧
      (readLoopLines [[104, 105], [10, 119, 111], [114, 108, 100, 10]]
          = readLoopLines [[104, 105, 10, 119, 111, 114, 108, 100, 10]] ∧
        ∀ l ∈ readLoopLines [[104, 105], [10, 119, 111], [114, 108, 100, 10]], '\n' ∉ l) :=
  ⟨by decide, readLoop_partition_invariant _ _ (by decide)⟩

/-! ## UTF-8 encoder

Models the browser TextEncoder used by the write paths of
realSerial.ts and serial.ts. -/

/-- Encode one character to its UTF-8 byte sequence. -/
def utf8EncodeChar (c : Char) : List Nat :=
  let n := c.toNat
  if n < 0x80 then [n]
  else if n < 0x800 then [0xC0 + n / 0x40, 0x80 + n % 0x40]
  else if n < 0x10000 then
    [0xE0 + n / 0x1000, 0x80 + (n / 0x40) % 0x40, 0x80 + n % 0x40]
  else
    [0xF0 + n / 0x40000, 0x80 + (n / 0x1000) % 0x40, 0x80 + (n / 0x40) % 0x40, 0x80 + n % 0x40]

/-- Encode a string (as a character list) to UTF-8 bytes. -/
def utf8Encode (l : List Char) : List Nat :=
  (l.map utf8EncodeChar).flatten

theorem utf8Encode_append (a b : List Char) :
    utf8Encode (a ++ b) = utf8Encode a ++ utf8Encode b := by
  simp [utf8Encode]

/-! ## JSON values

Shallow model of the values produced by JSON.parse.  JavaScript
numbers are modelled as exact decimals `mant / 10 ^ dexp`, which is
faithful for every literal a JSON text can contain (JSON numbers are
finite decimal strings); IEEE-754 rounding of extreme literals is out
of scope. -/

structure JsNum where
  mant : Int
  dexp : Nat
  deriving DecidableEq

inductive Json where
  | null
  | bool (b : Bool)
  | num (q : JsNum)
  | str (s : List Char)
  | arr (elems : List Json)
  | obj (fields : List (List Char × Json))

/-- Structural equality test for JSON values. -/
def Json.beq : Json → Json → Bool
  | .null, .null => true
  | .bool a, .bool b => a == b
  | .num a, .num b => a == b
  | .str a, .str b => a == b
  | .arr a, .arr b => beqList a b
  | .obj a, .obj b => beqFields a b
  | _, _ => false
where
  beqList : List Json → List Json → Bool
    | x :: xs, y :: ys => Json.beq x y && beqList xs ys
    | [], [] => true
    | _, _ => false
  beqFields : List (List Char × Json) → List (List Char × Json) → Bool
    | [], [] => true
    | (k, v) :: xs, (k', v') :: ys => k == k' && Json.beq v v' && beqFields xs ys
    | _, _ => false

/-! ## JSON lexer

Models JSON.parse (a host primitive the emulated transport relies on)
at the token level.  JSON whitespace is exactly space, tab, newline and
carriage return; strings reject raw control characters and unknown
escapes; numbers follow the JSON grammar (no leading zeros, mandatory
digits after the decimal point and exponent marker). -/

def jsonIsWs (c : Char) : Bool :=
  c = ' ' || c = '\t' || c = '\n' || c = '\r'

inductive JTok where
  | lbrace
  | rbrace
  | lbrack
  | rbrack
  | comma
  | colon
  | jstr (s : List Char)
  | jnum (q : JsNum)
  | jtrue
  | jfalse
  | jnull
  deriving DecidableEq

/-- Value of a mapped escape character, when legal. -/
def escChar (c : Char) : Option Char :=
  if c = '"' then some '"'
  else if c = '\\' then some '\\'
  else if c = '/' then some '/'
  else if c = 'b' then some (Char.ofNat 8)
  else if c = 'f' then some (Char.ofNat 12)
  else if c = 'n' then some '\n'
  else if c = 'r' then some '\r'
  else if c = 't' then some '\t'
  else none

def hexVal (c : Char) : Option Nat :=
  let n := c.toNat
  if 48 ≤ n ∧ n ≤ 57 then some (n - 48)
  else if 97 ≤ n ∧ n ≤ 102 then some (n - 87)
  else if 65 ≤ n ∧ n ≤ 70 then some (n - 55)
  else none

/-- Four hex digits of a \\u escape: their value and the rest. -/
def hex4 : List Char → Option (Nat × List Char)
  | h1 :: h2 :: h3 :: h4 :: r3 =>
    match hexVal h1, hexVal h2, hexVal h3, hexVal h4 with
    | some v1, some v2, some v3, some v4 => some ((((v1 * 16 + v2) * 16 + v3) * 16 + v4), r3)
    | _, _, _, _ => none
  | _ => none

/-- Lex one escape sequence (the backslash already consumed), given the
continuation `rec` that lexes the remainder of the string body. -/
def escSeq (rec : List Char → Option (List Char × List Char)) (e : Char) (r2 : List Char) :
    Option (List Char × List Char) :=
  match escChar e with
  | some ec => (rec r2).map (fun p => (ec :: p.1, p.2))
  | none =>
    if e = 'u' then
      match hex4 r2 with
      | some (v, r3) => (rec r3).map (fun p => (Char.ofNat v :: p.1, p.2))
      | none => none
    else none

/-- One step of string-body lexing: closing quote, escape sequence,
rejected control character, or ordinary character. -/
def lexStrStep (rec : List Char → Option (List Char × List Char)) :
    List Char → Option (List Char × List Char)
  | [] => none
  | c :: r =>
    if c = '"' then some ([], r)
    else if c = '\\' then
      match r with
      | [] => none
      | e :: r2 => escSeq rec e r2
    else if c.toNat < 0x20 then none
    else (rec r).map (fun p => (c :: p.1, p.2))

def lexStrBodyF : Nat → List Char → Option (List Char × List Char)
  | 0, _ => none
  | fuel + 1, s => lexStrStep (lexStrBodyF fuel) s

/-- Lex the body of a string literal (the opening quote already
consumed): returns its contents and the input after the closing quote.
The fuel exceeds the number of non-newline characters, which bounds the
recursion because a raw newline is rejected as a control character. -/
def lexStrBody (s : List Char) : Option (List Char × List Char) :=
  lexStrBodyF ((s.filter (fun c => c != '\n')).length + 1) s

def digitVal (c : Char) : Nat := c.toNat - '0'.toNat

def digitsToNat (l : List Char) : Nat :=
  l.foldl (fun a c => a * 10 + digitVal c) 0

/-- Integer part of a JSON number: a single 0, or a nonzero digit
followed by digits. -/
def lexIntPart : List Char → Option (List Char × List Char)
  | [] => none
  | c :: r =>
    if c = '0' then some ([c], r)
    else if c.isDigit then some (c :: r.takeWhile Char.isDigit, r.dropWhile Char.isDigit)
    else none

/-- Optional fraction part: digits after a decimal point (at least one
required when the point is present). -/
def lexFracPart : List Char → Option (List Char × List Char)
  | [] => some ([], [])
  | c :: r =>
    if c = '.' then
      if (r.takeWhile Char.isDigit).isEmpty then none
      else some (r.takeWhile Char.isDigit, r.dropWhile Char.isDigit)
    else some ([], c :: r)

/-- Sign of an exponent and the input after it. -/
def expSign : List Char → Int × List Char
  | '+' :: r' => (1, r')
  | '-' :: r' => (-1, r')
  | r => (1, r)

/-- Optional exponent part: its signed integer value (0 when absent). -/
def lexExpPart : List Char → Option (Int × List Char)
  | [] => some (0, [])
  | c :: r =>
    if c = 'e' || c = 'E' then
      if ((expSign r).2.takeWhile Char.isDigit).isEmpty then none
      else
        some ((expSign r).1 * (digitsToNat ((expSign r).2.takeWhile Char.isDigit) : Int),
          (expSign r).2.dropWhile Char.isDigit)
    else some (0, c :: r)

/-- Assemble an exact decimal from sign, integer digits, fraction
digits and exponent. -/
def mkJsNum (neg : Bool) (ip fp : List Char) (ex : Int) : JsNum :=
  let m0 : Int := (digitsToNat ip : Int) * (10 : Int) ^ fp.length + (digitsToNat fp : Int)
  let m1 : Int := if neg then -m0 else m0
  let de : Int := (fp.length : Int) - ex
  if de ≤ 0 then ⟨m1 * (10 : Int) ^ (-de).toNat, 0⟩ else ⟨m1, de.toNat⟩

/-- Lex a number beginning at the current position (sign already
consumed when `neg`). -/
def lexNum (neg : Bool) (s : List Char) : Option (JsNum × List Char) :=
  (lexIntPart s).bind (fun ip =>
    (lexFracPart ip.2).bind (fun fp =>
      (lexExpPart fp.2).map (fun ex => (mkJsNum neg ip.1 fp.1 ex.1, ex.2))))

/-- Lex a single token starting at non-whitespace character `c`. -/
def lexOne (c : Char) (rest : List Char) : Option (JTok × List Char) :=
  if c = '\x7b' then some (.lbrace, rest)
  else if c = '\x7d' then some (.rbrace, rest)
  else if c = '[' then some (.lbrack, rest)
  else if c = ']' then some (.rbrack, rest)
  else if c = ',' then some (.comma, rest)
  else if c = ':' then some (.colon, rest)
  else if c = '"' then (lexStrBody rest).map (fun p => (.jstr p.1, p.2))
  else if c = '-' then (lexNum true rest).map (fun p => (.jnum p.1, p.2))
  else if c.isDigit then (lexNum false (c :: rest)).map (fun p => (.jnum p.1, p.2))
  else if c.isAlpha then
    let w := c :: rest.takeWhile Char.isAlpha
    let r := rest.dropWhile Char.isAlpha
    if w = ("true").data then some (.jtrue, r)
    else if w = ("false").data then some (.jfalse, r)
    else if w = ("null").data then some (.jnull, r)
    else none
  else none

/-- One tokenization step: skip whitespace, stop at end of input, else
lex one token and continue through `rec`. -/
def tokStep (rec : List Char → Option (List JTok)) (s : List Char) : Option (List JTok) :=
  match s.dropWhile jsonIsWs with
  | [] => some []
  | c :: rest =>
    match lexOne c rest with
    | none => none
    | some tr => (rec tr.2).map (fun ts => tr.1 :: ts)

/-- Tokenization with a fuel bound on the number of tokens. -/
def tokenizeAux : Nat → List Char → Option (List JTok)
  | 0, _ => none
  | fuel + 1, s => tokStep (tokenizeAux fuel) s

/-- Tokenize a JSON text.  The fuel is one more than the number of
non-whitespace characters, which bounds the number of tokens; notably
it is unchanged by appending trailing whitespace. -/
def tokenize (s : List Char) : Option (List JTok) :=
  tokenizeAux ((s.filter (fun c => !jsonIsWs c)).length + 1) s


/-! ## JSON parsing over tokens -/

/-- What the token-level grammar is currently expecting: a single
value, the elements of an array (with those already read), or the
fields of an object. -/
inductive PMode where
  | one
  | elems (acc : List Json)
  | fields (acc : List (List Char × Json))

/-- Recursive-descent JSON parsing over the token list; the fuel only
bounds recursion depth and is immaterial when large enough. -/
def parseToks : Nat → PMode → List JTok → Option (Json × List JTok)
  | 0, _, _ => none
  | fuel + 1, .one, toks =>
    match toks with
    | .jstr s :: r => some (.str s, r)
    | .jnum q :: r => some (.num q, r)
    | .jtrue :: r => some (.bool true, r)
    | .jfalse :: r => some (.bool false, r)
    | .jnull :: r => some (.null, r)
    | .lbrack :: .rbrack :: r => some (.arr [], r)
    | .lbrack :: r => parseToks fuel (.elems []) r
    | .lbrace :: .rbrace :: r => some (.obj [], r)
    | .lbrace :: r => parseToks fuel (.fields []) r
    | _ => none
  | fuel + 1, .elems acc, toks =>
    match parseToks fuel .one toks with
    | none => none
    | some (v, r) =>
      match r with
      | .rbrack :: r2 => some (.arr (acc ++ [v]), r2)
      | .comma :: r2 => parseToks fuel (.elems (acc ++ [v])) r2
      | _ => none
  | fuel + 1, .fields acc, toks =>
    match toks with
    | .jstr k :: .colon :: r =>
      match parseToks fuel .one r with
      | none => none
      | some (v, r2) =>
        match r2 with
        | .rbrace :: r3 => some (.obj (acc ++ [(k, v)]), r3)
        | .comma :: r3 => parseToks fuel (.fields (acc ++ [(k, v)])) r3
        | _ => none
    | _ => none

/-- JSON.parse: tokenize, parse one value, and require that nothing but
the already-consumed whitespace remains. -/
def jsonParse (s : List Char) : Option Json :=
  match tokenize s with
  | none => none
  | some toks =>
    match parseToks (4 * toks.length + 4) .one toks with
    | some (v, []) => some v
    | _ => none

example : jsonParse (("null").data) = some Json.null := rfl
example : jsonParse (("  true ").data) = some (Json.bool true) := rfl
example : jsonParse (("[1, 2]").data)
    = some (Json.arr [Json.num ⟨1, 0⟩, Json.num ⟨2, 0⟩]) := rfl
example : jsonParse (("\"hi\"").data) = some (Json.str (("hi").data)) := rfl
example : jsonParse (("-2.50e1").data) = some (Json.num ⟨-250, 1⟩) := rfl
example : jsonParse (("0.5").data) = some (Json.num ⟨5, 1⟩) := rfl
example : jsonParse (("01").data) = none := rfl
example : jsonParse (("1.").data) = none := rfl
example : jsonParse (("hello").data) = none := rfl
example : jsonParse (("get_config").data) = none := rfl
example : jsonParse (("\x7b\"cmd\":\"get_config\"\x7d").data)
    = some (Json.obj [(("cmd").data, Json.str (("get_config").data))]) := rfl
example : jsonParse (("\x7b\"a\":[true,null], \"b\":\x7b\x7d\x7d").data)
    = some (Json.obj [(("a").data, Json.arr [Json.bool true, Json.null]),
        (("b").data, Json.obj [])]) := rfl
example : jsonParse (("\x7b\"cmd\":\"get_config\"\x7d\n").data)
    = jsonParse (("\x7b\"cmd\":\"get_config\"\x7d").data) := rfl

/-! ## Appending a trailing newline does not change tokenization -/

theorem takeWhile_append_neg {α : Type} (p : α → Bool) {x : α} (hx : p x = false)
    (a : List α) : (a ++ [x]).takeWhile p = a.takeWhile p := by
  induction a with
  | nil => simp [List.takeWhile_cons, hx]
  | cons c r ih => by_cases h : p c <;> simp [List.takeWhile_cons, h, ih]

theorem dropWhile_append_neg {α : Type} (p : α → Bool) {x : α} (hx : p x = false)
    (a : List α) : (a ++ [x]).dropWhile p = a.dropWhile p ++ [x] := by
  induction a with
  | nil => simp [List.dropWhile_cons, hx]
  | cons c r ih => by_cases h : p c <;> simp [List.dropWhile_cons, h, ih]

theorem dropWhile_append_pos {α : Type} (p : α → Bool) {x : α} (hx : p x = true)
    {a : List α} (h : a.dropWhile p = []) : (a ++ [x]).dropWhile p = [] := by
  induction a with
  | nil => simp [List.dropWhile_cons, hx]
  | cons c r ih =>
    by_cases hc : p c
    · simp only [List.dropWhile_cons, hc, if_true] at h
      simp [List.dropWhile_cons, hc, ih h]
    · simp [List.dropWhile_cons, hc] at h

theorem dropWhile_append_of_ne_nil {α : Type} (p : α → Bool) {a : List α} (t : List α)
    (h : a.dropWhile p ≠ []) : (a ++ t).dropWhile p = a.dropWhile p ++ t := by
  induction a with
  | nil => simp at h
  | cons c r ih =>
    by_cases hc : p c
    · simp only [List.cons_append, List.dropWhile_cons, hc, if_true] at h ⊢
      exact ih h
    · simp [List.dropWhile_cons, hc]


theorem hex4_append_nl (r2 : List Char) :
    hex4 (r2 ++ [ '\n' ]) = (hex4 r2).map (fun p => (p.1, p.2 ++ [ '\n' ])) := by
  match r2 with
  | [] => rfl
  | [a1] => rfl
  | [a1, a2] => rfl
  | [a1, a2, a3] =>
    have hnl : hexVal '\n' = none := rfl
    cases hv1 : hexVal a1 <;> cases hv2 : hexVal a2 <;> cases hv3 : hexVal a3 <;>
      simp [hex4, hv1, hv2, hv3, hnl]
  | a1 :: a2 :: a3 :: a4 :: r3 =>
    cases hv1 : hexVal a1 <;> cases hv2 : hexVal a2 <;> cases hv3 : hexVal a3 <;>
        cases hv4 : hexVal a4 <;>
      simp [hex4, hv1, hv2, hv3, hv4]

theorem lexStrBodyF_append_nl :
    ∀ (f : Nat) (a : List Char),
      lexStrBodyF f (a ++ [ '\n' ]) = (lexStrBodyF f a).map (fun p => (p.1, p.2 ++ [ '\n' ])) := by
  intro f
  induction f with
  | zero => intro a; rfl
  | succ f ih =>
    intro a
    match a with
    | [] => rfl
    | c :: r =>
      show lexStrStep (lexStrBodyF f) (c :: (r ++ [ '\n' ]))
          = (lexStrStep (lexStrBodyF f) (c :: r)).map (fun p => (p.1, p.2 ++ [ '\n' ]))
      by_cases h1 : c = '"'
      · simp [lexStrStep, h1]
      · by_cases h2 : c = '\\'
        · subst h2
          match r with
          | [] => rfl
          | e :: r2 =>
            simp only [lexStrStep, List.cons_append, if_neg h1, if_pos rfl]
            unfold escSeq
            cases hesc : escChar e with
            | some ec =>
              cases hb : lexStrBodyF f r2 <;> simp [hb, ih r2]
            | none =>
              by_cases hu : e = 'u'
              · rw [hex4_append_nl r2]
                cases hh : hex4 r2 with
                | none => simp [hu]
                | some p =>
                  cases hb : lexStrBodyF f p.2 <;> simp [hu, hb, ih p.2]
              · simp [hu]
        · by_cases h3 : c.toNat < 0x20
          · simp [lexStrStep, h1, h2, h3]
          · cases hb : lexStrBodyF f r <;> simp [lexStrStep, h1, h2, h3, hb, ih r]

theorem lexStrBody_append_nl (a : List Char) :
    lexStrBody (a ++ [ '\n' ]) = (lexStrBody a).map (fun p => (p.1, p.2 ++ [ '\n' ])) := by
  unfold lexStrBody
  have hf : ((a ++ [ '\n' ]).filter (fun c => c != '\n')).length
      = (a.filter (fun c => c != '\n')).length := by
    simp [List.filter_append]
  rw [hf]
  exact lexStrBodyF_append_nl _ a

theorem lexIntPart_append_nl (a : List Char) :
    lexIntPart (a ++ [ '\n' ]) = (lexIntPart a).map (fun p => (p.1, p.2 ++ [ '\n' ])) := by
  have hnl : Char.isDigit '\n' = false := rfl
  match a with
  | [] => rfl
  | c :: r =>
    by_cases h0 : c = '0'
    · simp [lexIntPart, h0]
    · by_cases hd : c.isDigit
      · simp [lexIntPart, h0, hd, takeWhile_append_neg Char.isDigit hnl,
          dropWhile_append_neg Char.isDigit hnl]
      · simp [lexIntPart, h0, hd]

theorem lexFracPart_append_nl (a : List Char) :
    lexFracPart (a ++ [ '\n' ]) = (lexFracPart a).map (fun p => (p.1, p.2 ++ [ '\n' ])) := by
  have hnl : Char.isDigit '\n' = false := rfl
  match a with
  | [] => rfl
  | c :: r =>
    by_cases hdot : c = '.'
    · by_cases hE : (r.takeWhile Char.isDigit).isEmpty
      · simp [lexFracPart, hdot, takeWhile_append_neg Char.isDigit hnl, hE]
      · simp [lexFracPart, hdot, takeWhile_append_neg Char.isDigit hnl,
          dropWhile_append_neg Char.isDigit hnl, hE]
    · simp [lexFracPart, hdot]

theorem expSign_append_nl (r : List Char) :
    expSign (r ++ [ '\n' ]) = ((expSign r).1, (expSign r).2 ++ [ '\n' ]) := by
  match r with
  | [] => rfl
  | c :: r' =>
    by_cases h1 : c = '+'
    · subst h1; rfl
    · by_cases h2 : c = '-'
      · subst h2; rfl
      · simp [expSign, h1, h2]

theorem lexExpPart_append_nl (a : List Char) :
    lexExpPart (a ++ [ '\n' ]) = (lexExpPart a).map (fun p => (p.1, p.2 ++ [ '\n' ])) := by
  have hnl : Char.isDigit '\n' = false := rfl
  match a with
  | [] => rfl
  | c :: r =>
    by_cases he : (c = 'e' || c = 'E') = true
    · by_cases hE : ((expSign r).2.takeWhile Char.isDigit).isEmpty
      · simp [lexExpPart, he, expSign_append_nl, takeWhile_append_neg Char.isDigit hnl, hE]
      · simp [lexExpPart, he, expSign_append_nl, takeWhile_append_neg Char.isDigit hnl,
          dropWhile_append_neg Char.isDigit hnl, hE]
    · simp [lexExpPart, he]

theorem lexNum_append_nl (neg : Bool) (a : List Char) :
    lexNum neg (a ++ [ '\n' ]) = (lexNum neg a).map (fun p => (p.1, p.2 ++ [ '\n' ])) := by
  unfold lexNum
  rw [lexIntPart_append_nl]
  cases hip : lexIntPart a with
  | none => rfl
  | some ip =>
    simp only [Option.map_some', Option.some_bind]
    rw [lexFracPart_append_nl]
    cases hfp : lexFracPart ip.2 with
    | none => rfl
    | some fp =>
      simp only [Option.map_some', Option.some_bind]
      rw [lexExpPart_append_nl]
      cases hex : lexExpPart fp.2 with
      | none => rfl
      | some ex => rfl

theorem lexOne_append_nl (c : Char) (rest : List Char) :
    lexOne c (rest ++ [ '\n' ]) = (lexOne c rest).map (fun p => (p.1, p.2 ++ [ '\n' ])) := by
  by_cases h1 : c = '\x7b'
  · simp [lexOne, h1]
  · by_cases h2 : c = '\x7d'
    · simp [lexOne, h1, h2]
    · by_cases h3 : c = '['
      · simp [lexOne, h1, h2, h3]
      · by_cases h4 : c = ']'
        · simp [lexOne, h1, h2, h3, h4]
        · by_cases h5 : c = ','
          · simp [lexOne, h1, h2, h3, h4, h5]
          · by_cases h6 : c = ':'
            · simp [lexOne, h1, h2, h3, h4, h5, h6]
            · by_cases h7 : c = '"'
              · simp only [lexOne, if_neg h1, if_neg h2, if_neg h3, if_neg h4, if_neg h5,
                  if_neg h6, if_pos h7]
                rw [lexStrBody_append_nl]
                cases hb : lexStrBody rest <;> simp [hb]
              · by_cases h8 : c = '-'
                · simp only [lexOne, if_neg h1, if_neg h2, if_neg h3, if_neg h4, if_neg h5,
                    if_neg h6, if_neg h7, if_pos h8]
                  rw [lexNum_append_nl]
                  cases hb : lexNum true rest <;> simp [hb]
                · by_cases h9 : c.isDigit
                  · simp only [lexOne, if_neg h1, if_neg h2, if_neg h3, if_neg h4, if_neg h5,
                      if_neg h6, if_neg h7, if_neg h8, if_pos h9]
                    rw [← List.cons_append, lexNum_append_nl]
                    cases hb : lexNum false (c :: rest) <;> simp [hb]
                  · by_cases h10 : c.isAlpha
                    · have hnlA : Char.isAlpha '\n' = false := rfl
                      simp only [lexOne, if_neg h1, if_neg h2, if_neg h3, if_neg h4, if_neg h5,
                        if_neg h6, if_neg h7, if_neg h8, if_neg h9, if_pos h10,
                        takeWhile_append_neg Char.isAlpha hnlA,
                        dropWhile_append_neg Char.isAlpha hnlA]
                      split_ifs <;> simp
                    · simp [lexOne, h1, h2, h3, h4, h5, h6, h7, h8, h9, h10]

theorem tokenizeAux_append_nl :
    ∀ (f : Nat) (s : List Char), tokenizeAux f (s ++ [ '\n' ]) = tokenizeAux f s := by
  intro f
  induction f with
  | zero => intro s; rfl
  | succ f ih =>
    intro s
    show tokStep (tokenizeAux f) (s ++ [ '\n' ]) = tokStep (tokenizeAux f) s
    have hnlw : jsonIsWs '\n' = true := rfl
    cases hdw : s.dropWhile jsonIsWs with
    | nil =>
      have h2 := dropWhile_append_pos jsonIsWs hnlw hdw
      simp [tokStep, hdw, h2]
    | cons c rest =>
      have h2 : (s ++ [ '\n' ]).dropWhile jsonIsWs = c :: (rest ++ [ '\n' ]) := by
        rw [dropWhile_append_of_ne_nil jsonIsWs _ (by rw [hdw]; simp), hdw]
        rfl
      simp only [tokStep, hdw, h2]
      rw [lexOne_append_nl]
      cases hlx : lexOne c rest with
      | none => rfl
      | some tr => simp [ih tr.2]

theorem tokenize_append_nl (s : List Char) : tokenize (s ++ [ '\n' ]) = tokenize s := by
  unfold tokenize
  have hf : ((s ++ [ '\n' ]).filter (fun c => !jsonIsWs c)).length
      = (s.filter (fun c => !jsonIsWs c)).length := by
    simp [List.filter_append, jsonIsWs]
  rw [hf, tokenizeAux_append_nl]

/-- Appending a trailing newline never changes the result of
JSON.parse: the newline is insignificant whitespace after the value and
cannot repair or alter any token. -/
theorem jsonParse_append_nl (s : List Char) : jsonParse (s ++ [ '\n' ]) = jsonParse s := by
  unfold jsonParse
  rw [tokenize_append_nl]

theorem jsTrim_append_nl (s : List Char) : jsTrim (s ++ [ '\n' ]) = jsTrim s := by
  unfold jsTrim
  have hnlw : jsIsWs '\n' = true := rfl
  cases hdw : s.dropWhile jsIsWs with
  | nil => simp [dropWhile_append_pos jsIsWs hnlw hdw, hdw]
  | cons c r =>
    rw [dropWhile_append_of_ne_nil jsIsWs _ (by rw [hdw]; simp), hdw]
    simp [List.reverse_append, List.dropWhile_cons, hnlw]

/-! ## JavaScript property access and array indexing -/

/-- Property lookup in an object built by JSON.parse: with duplicate
keys the last occurrence wins. -/
def jsLookup (fs : List (List Char × Json)) (k : List Char) : Option Json :=
  fs.foldl (fun acc p => if p.1 = k then some p.2 else acc) none

/-- JavaScript property access `v[k]`: throws (TypeError) on null,
yields the field or undefined on objects, and undefined on every other
JSON value (none of our keys exist on primitives or arrays). -/
def jsGetField : Json → List Char → Except Unit (Option Json)
  | .null, _ => .error ()
  | .obj fs, k => .ok (jsLookup fs k)
  | _, _ => .ok none

/-- JavaScript array indexing `xs[q]` with a number index: an element
for an integral index within bounds, undefined otherwise. -/
def jsIndexElem (xs : List Json) (q : JsNum) : Option Json :=
  if 0 ≤ q.mant ∧ q.mant % ((10 : Int) ^ q.dexp) = 0 then
    xs[((q.mant / (10 : Int) ^ q.dexp).toNat)]?
  else none

/-! ## Template-literal stringification -/

def natToChars (n : Nat) : List Char := Nat.toDigits 10 n

def stripTrailingZeros (l : List Char) : List Char :=
  (l.reverse.dropWhile (fun c => c = '0')).reverse

/-- Decimal rendering of an exact-decimal number, as JavaScript renders
such values in template literals (integer values without a point,
trailing fractional zeros dropped; exponential notation for extreme
magnitudes is out of scope). -/
def jsNumRender (q : JsNum) : List Char :=
  let sign : List Char := if q.mant < 0 then [ '-' ] else []
  let n : Nat := q.mant.natAbs
  if q.dexp = 0 then sign ++ natToChars n
  else
    let ds0 := natToChars n
    let ds := (List.replicate (q.dexp + 1 - ds0.length) '0') ++ ds0
    let ip := ds.take (ds.length - q.dexp)
    let fp := stripTrailingZeros (ds.drop (ds.length - q.dexp))
    sign ++ ip ++ (if fp.isEmpty then [] else '.' :: fp)

/-- JavaScript string coercion of a value interpolated into a template
literal. -/
def jsTemplate : Json → List Char
  | .null => ("null").data
  | .bool true => ("true").data
  | .bool false => ("false").data
  | .num q => jsNumRender q
  | .str s => s
  | .arr xs => joinElems xs
  | .obj _ => ("[object Object]").data
where
  joinElems : List Json → List Char
    | [] => []
    | [x] => (match x with | .null => [] | y => jsTemplate y)
    | x :: xs => (match x with | .null => [] | y => jsTemplate y) ++ (",").data ++ joinElems xs

/-- Coercion of a possibly-undefined value. -/
def jsTemplateOpt : Option Json → List Char
  | none => ("undefined").data
  | some j => jsTemplate j

/-! ## The mock macro-pad device (emulatedSerial.ts)

The device state is the in-memory 16-slot configuration.  A write
produces one (scheduled) response callback and, for test_macro, one
extra scheduled confirmation callback; each scheduled callback either
emits a line or crashes with an uncaught exception (`Except.error`).
Timing (the randomized latencies) is not modelled: outcomes keep the
response and the confirmations separate instead of interleaving them on
a clock. -/

structure DeviceState where
  macroConfig : List Json

inductive Emitted where
  | json (j : Json)
  | text (t : List Char)

structure WriteOutcome where
  state : DeviceState
  response : Except Unit Emitted
  confirmations : List (Except Unit Emitted)

def respOkSet : Json :=
  .obj [(("status").data, .str (("ok").data)), (("cmd").data, .str (("set_config").data))]

def respErrMissing : Json :=
  .obj [(("status").data, .str (("error").data)), (("reason").data, .str (("missing macros").data))]

def respOkTest : Json :=
  .obj [(("status").data, .str (("ok").data)), (("cmd").data, .str (("test_macro").data))]

def respErrBad : Json :=
  .obj [(("status").data, .str (("error").data)), (("reason").data, .str (("bad index").data))]

def respErrUnknown : Json :=
  .obj [(("status").data, .str (("error").data)), (("reason").data, .str (("unknown_cmd").data))]

def respConfig (st : DeviceState) : Json :=
  .obj [(("cmd").data, .str (("config").data)), (("macros").data, .arr st.macroConfig)]

/-- The line the delayed test_macro confirmation interpolates. -/
def confirmLine (q : JsNum) (desc : List Char) : List Char :=
  ("Macro ").data ++ jsNumRender q ++ (" executed: ").data ++ desc

/-- The scheduled confirmation callback of test_macro: it reads
`macroConfig[index].description`, so it crashes when the index is a
non-integral number (the indexed element is undefined) or the stored
element is null; otherwise it emits the confirmation line. -/
def confirmTask (q : JsNum) (st : DeviceState) : Except Unit Emitted :=
  match jsIndexElem st.macroConfig q with
  | none => .error ()
  | some .null => .error ()
  | some (.obj fs) => .ok (.text (confirmLine q (jsTemplateOpt (jsLookup fs (("description").data)))))
  | some _ => .ok (.text (confirmLine q (("undefined").data)))

/-- The set_config branch: accept any 16-element array, reject
everything else with the missing-macros error, leaving the state
untouched. -/
def setConfigAct (m : Option Json) (st : DeviceState) : Json × DeviceState :=
  match m with
  | some (.arr xs) =>
    if xs.length = 16 then (respOkSet, ⟨xs⟩) else (respErrMissing, st)
  | _ => (respErrMissing, st)

/-- The test_macro branch: a number index within [0,16) gets an ok
response plus one scheduled confirmation; everything else the bad-index
error. -/
def testMacroAct (iv : Option Json) (st : DeviceState) : Json × List (Except Unit Emitted) :=
  match iv with
  | some (.num q) =>
    if 0 ≤ q.mant ∧ q.mant < 16 * (10 : Int) ^ q.dexp then (respOkTest, [confirmTask q st])
    else (respErrBad, [])
  | _ => (respErrBad, [])

/-- The switch on `command.cmd` in processCommand. -/
def dispatchCmd (cmdv : Option Json) (c : Json) (st : DeviceState) :
    Except Unit (Json × DeviceState × List (Except Unit Emitted)) :=
  match cmdv with
  | some (.str cs) =>
    if cs = ("get_config").data then .ok (respConfig st, st, [])
    else if cs = ("set_config").data then
      (jsGetField c (("macros").data)).map (fun m =>
        ((setConfigAct m st).1, (setConfigAct m st).2, []))
    else if cs = ("test_macro").data then
      (jsGetField c (("index").data)).map (fun iv =>
        ((testMacroAct iv st).1, st, (testMacroAct iv st).2))
    else .ok (respErrUnknown, st, [])
  | _ => .ok (respErrUnknown, st, [])

/-- MockMacroPadDevice.processCommand: dispatch on the cmd property;
the only synchronous throw is the property access on a null command. -/
def processCommand (c : Json) (st : DeviceState) :
    Except Unit (Json × DeviceState × List (Except Unit Emitted)) :=
  (jsGetField c (("cmd").data)).bind (fun cmdv => dispatchCmd cmdv c st)

/-- The catch branch of handleCommand builds
`{ status: 'error', cmd, reason: 'invalid_command' }`; JSON.stringify
drops the cmd property when it is undefined. -/
def invalidCmdResp (v : Option Json) : Json :=
  .obj ([(("status").data, .str (("error").data))]
    ++ (match v with | some j => [(("cmd").data, j)] | none => [])
    ++ [(("reason").data, .str (("invalid_command").data))])

/-- MockMacroPadDevice.handleCommand: run processCommand inside
try/catch; the catch itself re-reads `command.cmd`, so for a null
command the callback crashes and nothing is emitted. -/
def deviceHandleCommand (c : Json) (st : DeviceState) : WriteOutcome :=
  match processCommand c st with
  | .ok r => ⟨r.2.1, .ok (.json r.1), r.2.2⟩
  | .error () =>
    match jsGetField c (("cmd").data) with
    | .error () => ⟨st, .error (), []⟩
    | .ok v => ⟨st, .ok (.json (invalidCmdResp v)), []⟩

/-- MockMacroPadDevice.handleTextCommand: a case-insensitive trimmed
"help" gets the command list, anything else the literal OK. -/
def deviceHandleText (data : List Char) (st : DeviceState) : WriteOutcome :=
  ⟨st,
    .ok (.text (if (jsTrim data).map Char.toLower = ("help").data
      then ("Available commands: get_config, set_config, test_macro").data
      else ("OK").data)),
    []⟩

/-- EmulatedSerialConnection.write past the open-check: parse as JSON
and dispatch, or fall back to the text handler on parse failure. -/
def emuDeviceWrite (data : List Char) (st : DeviceState) : WriteOutcome :=
  match jsonParse data with
  | some c => deviceHandleCommand c st
  | none => deviceHandleText data st

/-- One default slot of the mock device (color is randomized, passed
here as an oracle). -/
def defaultMacroKey (colors : Nat → Nat) (i : Nat) : Json :=
  .obj [(("key_code").data, .num ⟨0, 0⟩),
    (("modifier").data, .num ⟨0, 0⟩),
    (("consumer_code").data, .num ⟨0, 0⟩),
    (("color").data, .num ⟨(colors i : Int), 0⟩),
    (("description").data, .str ((("Key ").data) ++ natToChars i))]

/-- MockMacroPadDevice.initializeMacroConfig. -/
def mockDeviceInit (colors : Nat → Nat) : DeviceState :=
  ⟨(List.range 16).map (defaultMacroKey colors)⟩

/-! ## Connection objects -/

/-- EmulatedSerialConnection: the open flag, whether a disconnect
callback is registered, and how many times it has been invoked. -/
structure EmuConn where
  isConnected : Bool
  hasDisconnectCb : Bool
  disconnectCount : Nat
  deriving DecidableEq

def emuConnNew (cb : Bool) : EmuConn := ⟨false, cb, 0⟩

/-- EmulatedSerialConnection.open after its connection delay resolves:
the flag is set (the mock device is started and the ready message
scheduled, neither of which touches these fields). -/
def EmuConn.openResolve (c : EmuConn) : EmuConn := { c with isConnected := true }

/-- EmulatedSerialConnection.close: clear the flag, stop the device,
and invoke the disconnect callback unconditionally whenever one is
registered. -/
def EmuConn.closeResolve (c : EmuConn) : EmuConn :=
  ⟨false, c.hasDisconnectCb, c.disconnectCount + (if c.hasDisconnectCb then 1 else 0)⟩

/-- EmulatedSerialConnection.write: throws when the port is not open,
otherwise hands the payload to the mock device. -/
def EmuConn.write (c : EmuConn) (st : DeviceState) (data : List Char) :
    Except Unit WriteOutcome :=
  if c.isConnected then .ok (emuDeviceWrite data st) else .error ()

/-- EmulatedSerialConnection.writeLine forwards the line unchanged to
write (no terminator is appended). -/
def EmuConn.writeLine (c : EmuConn) (st : DeviceState) (line : List Char) :
    Except Unit WriteOutcome :=
  EmuConn.write c st line

/-- RealSerialConnection: the port, reader, writer (null-ness of each)
and the read-loop flag. -/
structure RealConn where
  port : Bool
  reader : Bool
  writer : Bool
  readLoopActive : Bool
  deriving DecidableEq

def realConnNew : RealConn := ⟨false, false, false, false⟩

/-- RealSerialConnection.open after the port opens: acquire reader and
writer from the port streams, then startReadLoop (which returns at once
unless a reader exists and no loop is active). -/
def RealConn.openResolve (c : RealConn) (readable writable : Bool) : RealConn :=
  let c1 : RealConn := ⟨true, readable, writable, c.readLoopActive⟩
  if c1.reader && !c1.readLoopActive then { c1 with readLoopActive := true } else c1

/-- RealSerialConnection.close: stop the loop, cancel and release the
reader, close and release the writer, close and null the port. -/
def RealConn.closeResolve (_ : RealConn) : RealConn := ⟨false, false, false, false⟩

/-- RealSerialConnection.isOpen: a port is held and the read loop is
running. -/
def RealConn.isOpen (c : RealConn) : Bool := c.port && c.readLoopActive

/-- RealSerialConnection.write: throws when the writer was never
acquired, otherwise encodes and transmits the payload. -/
def RealConn.write (c : RealConn) (data : List Char) : Except Unit (List Nat) :=
  if c.writer then .ok (utf8Encode data) else .error ()

/-- RealSerialConnection.writeLine: write the line plus one newline. -/
def RealConn.writeLine (c : RealConn) (line : List Char) : Except Unit (List Nat) :=
  RealConn.write c (line ++ [ '\n' ])

/-- What one reader.read() resolution can be: a byte chunk, or the
rejection that ends the loop (cancellation surfaces as done, failure as
a thrown error; both end the loop). -/
inductive ReadEv where
  | chunk (bs : List Nat)
  | failure

/-- The read loop of RealSerialConnection.startReadLoop: process chunks
until the stream ends or errors; the finally block fires the disconnect
callback exactly once on every path (the second component counts those
notifications). -/
def runReadLoop (st : RLState) : List ReadEv → List (List Char) × Nat
  | [] => ([], 1)
  | .chunk bs :: evs =>
    let o := readStep st bs
    let r := runReadLoop o.2 evs
    (o.1 ++ r.1, r.2)
  | .failure :: _ => ([], 1)

/-! ## Connection factory (factory.ts) -/

inductive SerialMode where
  | real
  | emulated
  | auto
  deriving DecidableEq

inductive TransportChoice where
  | realSerial
  | emulatedSerial
  deriving DecidableEq

/-- SerialFactory.create: `options.mode || this.forcedMode || this.mode`
resolved left to right (every mode string is truthy), then auto is
settled by capability detection, and anything but emulated yields the
real transport. -/
def factoryCreate (callMode forced : Option SerialMode) (dflt : SerialMode)
    (realSupported : Bool) : TransportChoice :=
  let actual := callMode.getD (forced.getD dflt)
  let actual2 :=
    if actual = SerialMode.auto then
      (if realSupported then SerialMode.real else SerialMode.emulated)
    else actual
  if actual2 = SerialMode.emulated then TransportChoice.emulatedSerial
  else TransportChoice.realSerial

/-- SerialFactory.getMode: the forced mode when set, else the default. -/
def factoryGetMode (forced : Option SerialMode) (dflt : SerialMode) : SerialMode :=
  forced.getD dflt

/-- The transport a single mode resolves to under the given capability
detection. -/
def resolveModeChoice (m : SerialMode) (sup : Bool) : TransportChoice :=
  match m with
  | .emulated => .emulatedSerial
  | .real => .realSerial
  | .auto => if sup then .realSerial else .emulatedSerial

example :
    (emuDeviceWrite (("hello").data) (mockDeviceInit (fun _ => 0))).response
      = .ok (.text (("OK").data)) := rfl

example :
    (emuDeviceWrite ((" HELP ").data) (mockDeviceInit (fun _ => 0))).response
      = .ok (.text (("Available commands: get_config, set_config, test_macro").data)) := rfl

example :
    (emuDeviceWrite (("\x7b\"cmd\":\"nope\"\x7d").data) (mockDeviceInit (fun _ => 0))).response
      = .ok (.json respErrUnknown) := rfl

example :
    (emuDeviceWrite (("\x7b\"cmd\":\"test_macro\",\"index\":3\x7d").data)
        (mockDeviceInit (fun _ => 0))).response = .ok (.json respOkTest) := rfl

example :
    (emuDeviceWrite (("\x7b\"cmd\":\"test_macro\",\"index\":3\x7d").data)
        (mockDeviceInit (fun _ => 0))).confirmations
      = [.ok (.text (("Macro 3 executed: Key 3").data))] := rfl

example :
    (emuDeviceWrite (("\x7b\"cmd\":\"test_macro\",\"index\":2.5\x7d").data)
        (mockDeviceInit (fun _ => 0))).response = .ok (.json respOkTest) := rfl

example :
    (emuDeviceWrite (("\x7b\"cmd\":\"test_macro\",\"index\":2.5\x7d").data)
        (mockDeviceInit (fun _ => 0))).confirmations = [.error ()] := rfl

example :
    (emuDeviceWrite (("null").data) (mockDeviceInit (fun _ => 0))).response
      = .error () := rfl

/-! ## Claim theorems -/

theorem emuDeviceWrite_append_nl (data : List Char) (st : DeviceState) :
    emuDeviceWrite (data ++ [ '\n' ]) st = emuDeviceWrite data st := by
  unfold emuDeviceWrite
  rw [jsonParse_append_nl]
  cases hp : jsonParse data with
  | some c => rfl
  | none =>
    unfold deviceHandleText
    rw [jsTrim_append_nl]

/-- C5.  On the emulated connection writeLine(line) behaves exactly like
write(line + newline): not-open failures coincide and the device
produces identical state, response and scheduled confirmations, because
a trailing newline changes neither JSON.parse nor the trimmed text
command.  On the real transport writeLine(line) is write(line + newline)
and, once the writer is held, transmits exactly the UTF-8 bytes of the
line followed by one newline byte. -/
theorem writeLine_equiv_write_newline (conn : EmuConn) (st : DeviceState) (line : List Char)
    (rc : RealConn) :
    EmuConn.writeLine conn st line = EmuConn.write conn st (line ++ [ '\n' ]) ∧
      RealConn.writeLine rc line = RealConn.write rc (line ++ [ '\n' ]) ∧
      (rc.writer = true → RealConn.writeLine rc line = .ok (utf8Encode line ++ [10])) := by
  refine ⟨?_, rfl, ?_⟩
  · unfold EmuConn.writeLine EmuConn.write
    by_cases hc : conn.isConnected
    · simp [hc, emuDeviceWrite_append_nl]
    · simp [hc]
  · intro hw
    unfold RealConn.writeLine RealConn.write
    rw [if_pos hw, utf8Encode_append]
    have h10 : utf8Encode [ '\n' ] = [10] := rfl
    rw [h10]

/-- Concrete instance of C5: with the writer acquired, writeLine sends
the encoded line plus a newline byte. -/
theorem writeLine_equiv_write_newline_witness :
    RealConn.writeLine (RealConn.openResolve realConnNew true true) (("ping").data)
      = .ok (utf8Encode (("ping").data) ++ [10]) :=
  (writeLine_equiv_write_newline (emuConnNew true) (mockDeviceInit (fun _ => 0)) (("ping").data)
    (RealConn.openResolve realConnNew true true)).2.2 rfl

/-- Is the looked-up cmd property one of the three recognized command
names? -/
def knownCmdName (v : Option Json) : Bool :=
  match v with
  | some (.str s) =>
    s = ("get_config").data || s = ("set_config").data || s = ("test_macro").data
  | _ => false

/-- C9.  A parsed JSON object whose cmd is not one of the three known
commands gets the unknown_cmd error response; a non-JSON write whose
trimmed lowercase text is not help gets the literal OK line; and every
parse failure is converted into a text response rather than thrown. -/
theorem unknown_cmd_and_text_fallback (data : List Char) (st : DeviceState) :
    (∀ fs, jsonParse data = some (.obj fs) →
        knownCmdName (jsLookup fs (("cmd").data)) = false →
        emuDeviceWrite data st = ⟨st, .ok (.json respErrUnknown), []⟩) ∧
      (jsonParse data = none → (jsTrim data).map Char.toLower ≠ ("help").data →
        emuDeviceWrite data st = ⟨st, .ok (.text (("OK").data)), []⟩) ∧
      (jsonParse data = none → ∃ t, emuDeviceWrite data st = ⟨st, .ok (.text t), []⟩) := by
  refine ⟨?_, ?_, ?_⟩
  · intro fs hp hk
    unfold emuDeviceWrite
    rw [hp]
    show deviceHandleCommand (Json.obj fs) st
      = ⟨st, .ok (.json respErrUnknown), []⟩
    have hpc : processCommand (.obj fs) st
        = dispatchCmd (jsLookup fs (("cmd").data)) (.obj fs) st := rfl
    unfold deviceHandleCommand
    rw [hpc]
    cases hlk : jsLookup fs (("cmd").data) with
    | none => rfl
    | some v =>
      cases v with
      | str s =>
        rw [hlk] at hk
        simp only [knownCmdName, Bool.or_eq_false_iff, decide_eq_false_iff_not] at hk
        obtain ⟨⟨h1, h2⟩, h3⟩ := hk
        simp only [dispatchCmd, if_neg h1, if_neg h2, if_neg h3]
      | null => rfl
      | bool b => rfl
      | num q => rfl
      | arr xs => rfl
      | obj fs2 => rfl
  · intro hp hh
    unfold emuDeviceWrite
    rw [hp]
    unfold deviceHandleText
    rw [if_neg hh]
  · intro hp
    unfold emuDeviceWrite
    rw [hp]
    unfold deviceHandleText
    by_cases hh : (jsTrim data).map Char.toLower = ("help").data
    · exact ⟨_, by rw [if_pos hh]⟩
    · exact ⟨_, by rw [if_neg hh]⟩

/-- Concrete instance of C9: an unrecognized command name and a
non-JSON text line. -/
theorem unknown_cmd_and_text_fallback_witness :
    emuDeviceWrite (("\x7b\"cmd\":\"foo\"\x7d").data) (mockDeviceInit (fun _ => 0))
        = ⟨mockDeviceInit (fun _ => 0), .ok (.json respErrUnknown), []⟩ ∧
      emuDeviceWrite (("hi there").data) (mockDeviceInit (fun _ => 0))
        = ⟨mockDeviceInit (fun _ => 0), .ok (.text (("OK").data)), []⟩ :=
  ⟨(unknown_cmd_and_text_fallback (("\x7b\"cmd\":\"foo\"\x7d").data)
      (mockDeviceInit (fun _ => 0))).1 [(("cmd").data, .str (("foo").data))] rfl rfl,
   (unknown_cmd_and_text_fallback (("hi there").data) (mockDeviceInit (fun _ => 0))).2.1
      rfl (by decide)⟩

/-- C6.  A set_config command whose macros field is absent, not an
array, or an array of length other than 16 gets the missing-macros
error and leaves the stored configuration untouched. -/
theorem set_config_rejects_bad_macros (fs : List (List Char × Json)) (st : DeviceState)
    (hcmd : jsLookup fs (("cmd").data) = some (.str (("set_config").data)))
    (hbad : ∀ xs, jsLookup fs (("macros").data) = some (.arr xs) → xs.length ≠ 16) :
    processCommand (.obj fs) st = .ok (respErrMissing, st, []) := by
  have h1 : processCommand (.obj fs) st
      = dispatchCmd (jsLookup fs (("cmd").data)) (.obj fs) st := rfl
  rw [h1, hcmd]
  have h2 : dispatchCmd (some (.str (("set_config").data))) (.obj fs) st
      = Except.map (fun m => ((setConfigAct m st).1, (setConfigAct m st).2, []))
        (.ok (jsLookup fs (("macros").data))) := rfl
  rw [h2]
  cases hm : jsLookup fs (("macros").data) with
  | none => rfl
  | some v =>
    cases v with
    | arr xs => simp [setConfigAct, Except.map, hbad xs hm]
    | null => rfl
    | bool b => rfl
    | num q => rfl
    | str s => rfl
    | obj fs2 => rfl

/-- Concrete instance of C6: a 15-element macros array is rejected. -/
theorem set_config_rejects_bad_macros_witness :
    processCommand
        (.obj [(("cmd").data, .str (("set_config").data)),
          (("macros").data, .arr (List.replicate 15 Json.null))])
        (mockDeviceInit (fun _ => 0))
      = .ok (respErrMissing, mockDeviceInit (fun _ => 0), []) :=
  set_config_rejects_bad_macros _ _ rfl
    (by
      intro xs h
      have h2 : List.replicate 15 Json.null = xs :=
        (Json.arr.inj (Option.some.inj h))
      rw [← h2]
      simp)

/-- A well-formed set_config command carrying exactly the array `xs`. -/
def mkSetCmd (xs : List Json) : Json :=
  .obj [(("cmd").data, .str (("set_config").data)), (("macros").data, .arr xs)]

/-- The get_config command. -/
def getCmd : Json := .obj [(("cmd").data, .str (("get_config").data))]

/-- A test_macro command with the given index value present (`some`) or
absent (`none`). -/
def mkTestCmdOpt (iv : Option Json) : Json :=
  .obj ([(("cmd").data, .str (("test_macro").data))]
    ++ (match iv with | some v => [(("index").data, v)] | none => []))

def mkTestCmd (v : Json) : Json := mkTestCmdOpt (some v)

/-- Is a stored element a well-formed macro key within the documented
ranges?  (Validity in the sense of the protocol data model; the mock
device itself never checks it.) -/
def validMacroKey (j : Json) : Bool :=
  match j with
  | .obj fs =>
    (match jsLookup fs (("key_code").data) with
     | some (.num q) => q.dexp = 0 && 0 ≤ q.mant && q.mant ≤ 255
     | _ => false) &&
    (match jsLookup fs (("modifier").data) with
     | some (.num q) => q.dexp = 0 && 0 ≤ q.mant && q.mant ≤ 255
     | _ => false) &&
    (match jsLookup fs (("consumer_code").data) with
     | some (.num q) => q.dexp = 0 && 0 ≤ q.mant && q.mant ≤ 65535
     | _ => false) &&
    (match jsLookup fs (("color").data) with
     | some (.num q) => q.dexp = 0 && 0 ≤ q.mant && q.mant ≤ 16777215
     | _ => false)
  | _ => false

/-- C7.  Setting a valid 16-element macros array and then issuing
get_config returns exactly the macros just set. -/
theorem set_then_get_roundtrip (xs : List Json) (st : DeviceState)
    (hlen : xs.length = 16) (_hvalid : ∀ j ∈ xs, validMacroKey j = true) :
    processCommand (mkSetCmd xs) st = .ok (respOkSet, ⟨xs⟩, []) ∧
      processCommand getCmd ⟨xs⟩ = .ok (respConfig ⟨xs⟩, ⟨xs⟩, []) := by
  constructor
  · have hstep : processCommand (mkSetCmd xs) st
        = .ok ((setConfigAct (some (.arr xs)) st).1, (setConfigAct (some (.arr xs)) st).2, []) :=
      rfl
    rw [hstep]
    simp [setConfigAct, hlen]
  · rfl

/-- Concrete instance of C7: the default configuration is valid and
round-trips. -/
theorem set_then_get_roundtrip_witness :
    processCommand (mkSetCmd (mockDeviceInit (fun _ => 0)).macroConfig)
        (mockDeviceInit (fun i => i))
      = .ok (respOkSet, ⟨(mockDeviceInit (fun _ => 0)).macroConfig⟩, []) ∧
      processCommand getCmd ⟨(mockDeviceInit (fun _ => 0)).macroConfig⟩
        = .ok (respConfig ⟨(mockDeviceInit (fun _ => 0)).macroConfig⟩,
            ⟨(mockDeviceInit (fun _ => 0)).macroConfig⟩, []) :=
  set_then_get_roundtrip _ _ (by decide) (by decide)

/-- C10.  The mock device performs no per-element validation: any
16-element array whatsoever is accepted, stored verbatim, and returned
unchanged by a subsequent get_config. -/
theorem set_config_no_element_validation (xs : List Json) (st : DeviceState)
    (hlen : xs.length = 16) :
    processCommand (mkSetCmd xs) st = .ok (respOkSet, ⟨xs⟩, []) ∧
      processCommand getCmd ⟨xs⟩ = .ok (respConfig ⟨xs⟩, ⟨xs⟩, []) := by
  constructor
  · have hstep : processCommand (mkSetCmd xs) st
        = .ok ((setConfigAct (some (.arr xs)) st).1, (setConfigAct (some (.arr xs)) st).2, []) :=
      rfl
    rw [hstep]
    simp [setConfigAct, hlen]
  · rfl

/-- Concrete instance of C10: sixteen bare out-of-range numbers (no
key_code, modifier, consumer_code, color or description fields at all)
are accepted and round-trip verbatim. -/
theorem set_config_no_element_validation_witness :
    processCommand (mkSetCmd (List.replicate 16 (Json.num ⟨999999999, 0⟩)))
        (mockDeviceInit (fun _ => 0))
      = .ok (respOkSet, ⟨List.replicate 16 (Json.num ⟨999999999, 0⟩)⟩, []) ∧
      processCommand getCmd ⟨List.replicate 16 (Json.num ⟨999999999, 0⟩)⟩
        = .ok (respConfig ⟨List.replicate 16 (Json.num ⟨999999999, 0⟩)⟩,
            ⟨List.replicate 16 (Json.num ⟨999999999, 0⟩)⟩, []) :=
  set_config_no_element_validation _ _ (by decide)

/-- C4 counterexample.  The device checks `typeof index === 'number'`,
not integrality: for the non-integer index 2.5 (inside [0,16)) the
immediate response is the ok status, not the bad-index error the claim
requires; the scheduled confirmation then crashes instead of emitting a
line. -/
theorem test_macro_nonint_index_gets_ok :
    processCommand (mkTestCmd (.num ⟨25, 1⟩)) (mockDeviceInit (fun _ => 0))
        = .ok (respOkTest, mockDeviceInit (fun _ => 0),
            [confirmTask ⟨25, 1⟩ (mockDeviceInit (fun _ => 0))]) ∧
      confirmTask ⟨25, 1⟩ (mockDeviceInit (fun _ => 0)) = .error () ∧
      respOkTest ≠ respErrBad := by
  refine ⟨rfl, rfl, ?_⟩
  intro h
  have h2 := congrArg
    (fun j => jsTemplateOpt (match j with | Json.obj fs => jsLookup fs (("status").data) | _ => none))
    h
  exact absurd h2 (by decide)

/-- C4 (amended).  An absent or non-number index, or a number outside
[0,16), gets the bad-index error.  A number index inside [0,16) gets
the immediate ok status and exactly one scheduled confirmation task;
for an integral index whose slot holds an object with a string
description the task emits the confirmation line naming that
description, while for a non-integral index the task crashes without
emitting anything. -/
theorem test_macro_index_handling (st : DeviceState) :
    (∀ iv, (∀ q, iv ≠ some (.num q)) →
        processCommand (mkTestCmdOpt iv) st = .ok (respErrBad, st, [])) ∧
      (∀ q : JsNum, ¬(0 ≤ q.mant ∧ q.mant < 16 * (10 : Int) ^ q.dexp) →
        processCommand (mkTestCmd (.num q)) st = .ok (respErrBad, st, [])) ∧
      (∀ q : JsNum, (0 ≤ q.mant ∧ q.mant < 16 * (10 : Int) ^ q.dexp) →
        processCommand (mkTestCmd (.num q)) st = .ok (respOkTest, st, [confirmTask q st])) ∧
      (∀ q : JsNum, q.mant % (10 : Int) ^ q.dexp ≠ 0 → confirmTask q st = .error ()) ∧
      (∀ (i : Nat) (d : List Char) (fs : List (List Char × Json)),
        st.macroConfig[i]? = some (.obj fs) →
        jsLookup fs (("description").data) = some (.str d) →
        confirmTask ⟨(i : Int), 0⟩ st
          = .ok (.text (("Macro ").data ++ natToChars i ++ (" executed: ").data ++ d))) := by
  refine ⟨?_, ?_, ?_, ?_, ?_⟩
  · intro iv hnn
    cases iv with
    | none => rfl
    | some v =>
      cases v with
      | num q => exact absurd rfl (hnn q)
      | null => rfl
      | bool b => rfl
      | str s => rfl
      | arr xs => rfl
      | obj fs => rfl
  · intro q hq
    have hstep : processCommand (mkTestCmd (.num q)) st
        = .ok ((testMacroAct (some (.num q)) st).1, st, (testMacroAct (some (.num q)) st).2) :=
      rfl
    rw [hstep]
    simp [testMacroAct, hq]
  · intro q hq
    have hstep : processCommand (mkTestCmd (.num q)) st
        = .ok ((testMacroAct (some (.num q)) st).1, st, (testMacroAct (some (.num q)) st).2) :=
      rfl
    rw [hstep]
    simp [testMacroAct, hq]
  · intro q hmod
    simp [confirmTask, jsIndexElem, hmod]
  · intro i d fs hget hdesc
    have hidx : jsIndexElem st.macroConfig ⟨(i : Int), 0⟩ = st.macroConfig[i]? := by
      simp [jsIndexElem]
    rw [confirmTask, hidx, hget]
    show Except.ok (Emitted.text (confirmLine ⟨(i : Int), 0⟩
      (jsTemplateOpt (jsLookup fs (("description").data))))) = _
    rw [hdesc]
    have hpos : ¬((i : Int) < 0) := by omega
    simp [confirmLine, jsNumRender, jsTemplateOpt, jsTemplate, hpos, Int.natAbs_ofNat]

/-- Concrete instance of C4 (amended): a string index is rejected, a
valid integer index 3 responds ok and schedules the confirmation naming
slot 3. -/
theorem test_macro_index_handling_witness :
    processCommand (mkTestCmd (.str (("3").data))) (mockDeviceInit (fun _ => 0))
        = .ok (respErrBad, mockDeviceInit (fun _ => 0), []) ∧
      processCommand (mkTestCmd (.num ⟨3, 0⟩)) (mockDeviceInit (fun _ => 0))
        = .ok (respOkTest, mockDeviceInit (fun _ => 0),
            [confirmTask ⟨3, 0⟩ (mockDeviceInit (fun _ => 0))]) ∧
      confirmTask ⟨(3 : Nat), 0⟩ (mockDeviceInit (fun _ => 0))
        = .ok (.text (("Macro ").data ++ natToChars 3 ++ (" executed: ").data
            ++ (("Key 3").data))) :=
  ⟨(test_macro_index_handling (mockDeviceInit (fun _ => 0))).1 (some (.str (("3").data)))
      (by intro q h; cases h),
   (test_macro_index_handling (mockDeviceInit (fun _ => 0))).2.2.1 ⟨3, 0⟩ (by decide),
   (test_macro_index_handling (mockDeviceInit (fun _ => 0))).2.2.2.2 3 (("Key 3").data) _
      rfl rfl⟩

/-- C2 counterexample.  With a forced mode of emulated in place, a
per-call mode of real still yields the real transport: the
`options.mode || forcedMode || mode` chain gives the per-call mode
precedence over the forced mode, contradicting the claim that the
forced mode wins whenever it is set. -/
theorem forced_mode_not_over_call_mode :
    factoryCreate (some SerialMode.real) (some SerialMode.emulated) SerialMode.emulated false
        = TransportChoice.realSerial ∧
      resolveModeChoice SerialMode.emulated false = TransportChoice.emulatedSerial ∧
      TransportChoice.realSerial ≠ TransportChoice.emulatedSerial := by
  decide

/-- C2 (amended).  The forced mode takes precedence over the
module-level default whenever no per-call mode is given (and getMode
reports it), but a per-call mode, when given, takes precedence over
both the forced and the default mode. -/
theorem factory_mode_precedence (m dflt : SerialMode) (fo : Option SerialMode) (sup : Bool) :
    factoryCreate none (some m) dflt sup = resolveModeChoice m sup ∧
      factoryCreate (some m) fo dflt sup = resolveModeChoice m sup ∧
      factoryCreate none none dflt sup = resolveModeChoice dflt sup ∧
      factoryGetMode (some m) dflt = m ∧
      factoryGetMode none dflt = dflt := by
  cases m <;> cases dflt <;> cases sup <;>
    simp [factoryCreate, resolveModeChoice, factoryGetMode]

/-- C3 counterexample.  One open/close cycle of the emulated connection
with a registered disconnect callback, followed by a second close() in
the same cycle: the callback fires twice, because close() invokes it
unconditionally. -/
theorem emulated_double_close_double_disconnect :
    (EmuConn.closeResolve (EmuConn.closeResolve
          (EmuConn.openResolve (emuConnNew true)))).disconnectCount = 2 ∧
      (2 : Nat) ≠ 1 := by
  decide

/-- C3 (amended).  isOpen() is false on a fresh connection and false
after close() resolves, for both transports.  The real transport fires
the disconnect notification exactly once per read-loop run, whatever
ends the loop.  The emulated transport fires the notification on every
close() call with a callback registered, so one close fires exactly
once but a second close() in the same cycle fires again. -/
theorem lifecycle_isOpen_and_disconnect (cb : Bool) (c : EmuConn) (rc : RealConn)
    (st : RLState) (evs : List ReadEv) :
    (emuConnNew cb).isConnected = false ∧
      (EmuConn.closeResolve c).isConnected = false ∧
      (c.hasDisconnectCb = true →
        (EmuConn.closeResolve c).disconnectCount = c.disconnectCount + 1) ∧
      RealConn.isOpen realConnNew = false ∧
      RealConn.isOpen (RealConn.closeResolve rc) = false ∧
      (runReadLoop st evs).2 = 1 := by
  refine ⟨rfl, rfl, ?_, rfl, rfl, ?_⟩
  · intro h
    simp [EmuConn.closeResolve, h]
  · induction evs generalizing st with
    | nil => rfl
    | cons e evs ih =>
      cases e with
      | chunk bs => simp [runReadLoop, ih]
      | failure => rfl

/-- Concrete instance of C3 (amended): one close fires one notification
and a two-chunk read-loop run fires exactly one disconnect. -/
theorem lifecycle_isOpen_and_disconnect_witness :
    (EmuConn.closeResolve (EmuConn.openResolve (emuConnNew true))).disconnectCount
        = (EmuConn.openResolve (emuConnNew true)).disconnectCount + 1 ∧
      (runReadLoop ⟨[], []⟩ [ReadEv.chunk [104, 105, 10], ReadEv.failure]).2 = 1 :=
  ⟨(lifecycle_isOpen_and_disconnect true (EmuConn.openResolve (emuConnNew true)) realConnNew
      ⟨[], []⟩ []).2.2.1 rfl,
   (lifecycle_isOpen_and_disconnect true (EmuConn.openResolve (emuConnNew true)) realConnNew
      ⟨[], []⟩ [ReadEv.chunk [104, 105, 10], ReadEv.failure]).2.2.2.2.2⟩

/-- C8.  write(data) fails with an error — never a silent no-op — on a
fresh connection (open() not yet resolved) and after close(), for both
the emulated transport (port-open check) and the real transport (writer
null check). -/
theorem write_fails_when_not_open (cb : Bool) (st : DeviceState) (data : List Char)
    (c : EmuConn) (rc : RealConn) :
    EmuConn.write (emuConnNew cb) st data = .error () ∧
      EmuConn.write (EmuConn.closeResolve c) st data = .error () ∧
      RealConn.write realConnNew data = .error () ∧
      RealConn.write (RealConn.closeResolve rc) data = .error () :=
  ⟨rfl, rfl, rfl, rfl⟩
